import Mathlib

/-!
# Verification of the Into core: Variant container and operation processors

Shallow embedding of the parts of the Into repository that the claims
concern:

* `src/core/PiiVariant.h` — the type-erased `PiiVariant` container, its
  primitive-type constructors and accessors, the type-category predicates
  and the `convertTo` conversion entry points.
* `src/ydin/PiiYdinTypes.h` — the `PiiYdin` type-category predicates.
* `src/ydin/PiiSimpleProcessor.cc` — the synchronous (caller-thread-driven)
  operation processor: `tryToReceive`, `check`, `start`, `stop`, `pause`,
  `interrupt`, `wait`.
* `src/ydin/PiiThreadedProcessor.cc` — the threaded processor:
  `interrupt`, `start`, `stop`, `pause`, `setStopped`, and the shape of the
  `run` loop relevant to interruption.

External collaborators (the input socket's bounded queue and the
one-input pass-through flow controller) are modelled from the spec, as
noted in their doc comments.  Machine integers are modelled as `Nat`
bit patterns; no arithmetic overflows occur in the embedded code paths.
-/

namespace Into

/-! ## Type tags and category predicates (src/core/PiiVariant.h, src/ydin/PiiYdinTypes.h) -/

/-- `PiiVariant::PrimitiveType` enumeration values
(src/core/PiiVariant.h lines 251-272). -/
def CharType : Nat := 0x00
def ShortType : Nat := 0x01
def IntType : Nat := 0x02
def Int64Type : Nat := 0x03
def UnsignedCharType : Nat := 0x08
def UnsignedShortType : Nat := 0x09
def UnsignedIntType : Nat := 0x0a
def UnsignedInt64Type : Nat := 0x0b
def FloatType : Nat := 0x10
def DoubleType : Nat := 0x11
def BoolType : Nat := 0x18
def VoidPtrType : Nat := 0x19
def LastPrimitiveType : Nat := VoidPtrType
def InvalidType : Nat := 0xffffffff

/-- `PiiVariant::isPrimitive(unsigned int type)`:
`return type <= LastPrimitiveType;` (src/core/PiiVariant.h line 339). -/
def isPrimitive (type : Nat) : Bool := type ≤ LastPrimitiveType

/-- `PiiVariant::isInteger(unsigned int type)`:
`return (type & 0x10) == 0;` (src/core/PiiVariant.h line 359). -/
def isInteger (type : Nat) : Bool := type &&& 0x10 == 0

/-- `PiiVariant::isFloat(unsigned int type)`:
`return (type & 0x18) == 0x10;` (src/core/PiiVariant.h line 370). -/
def isFloat (type : Nat) : Bool := type &&& 0x18 == 0x10

/-- `PiiYdin::isControlType(int type)`:
`return (type & ~0x1f) == 0x20;` (src/ydin/PiiYdinTypes.h line 623).
The argument is a 32-bit tag; the mask `~0x1f` on the 32-bit pattern is
`0xffffffe0`. -/
def isControlType (type : Nat) : Bool := type &&& 0xffffffe0 == 0x20

/-- `PiiYdin::isMatrixType(int type)`:
`return (type & ~0x1f) == 0x40;` (src/ydin/PiiYdinTypes.h lines 665-668). -/
def isMatrixType (type : Nat) : Bool := type &&& 0xffffffe0 == 0x40

/-! ## The Variant value union (src/core/PiiVariant.h lines 519-542)

The C++ `Value` union has one member per primitive type.  We model the
union as a sum type recording which member is active together with the
stored bit pattern: `char`/`unsigned char` as 8-bit patterns, `short` and
`unsigned short` as 16-bit patterns, `int`, `unsigned int` and `float` as
32-bit patterns, `qint64`, `quint64`, `double` and `void*` as 64-bit
patterns, `bool` as `Bool`.  Constructing and reading a member copies the
pattern verbatim, exactly as the C++ union does. -/

/-- The active member of `PiiVariant::Value` and its stored bit pattern. -/
inductive VValue where
  | cValue (v : Fin 256)
  | sValue (v : Fin 65536)
  | iValue (v : Fin 4294967296)
  | lValue (v : Fin 18446744073709551616)
  | ucValue (v : Fin 256)
  | usValue (v : Fin 65536)
  | uiValue (v : Fin 4294967296)
  | ulValue (v : Fin 18446744073709551616)
  | fValue (v : Fin 4294967296)
  | dValue (v : Fin 18446744073709551616)
  | bValue (v : Bool)
  | pValue (v : Fin 18446744073709551616)
  deriving DecidableEq, Repr

/-- The `PiiVariant` object: the 32-bit type tag `_uiType` and the stored
value.  (The `_pVTable` pointer is determined by the type tag and carries
no extra state relevant to the claims; heap- versus inline storage of
non-primitive payloads is invisible to `valueAs`/`convertTo`, which both
read through `ptrAs<T>()`.) -/
structure PiiVariant where
  uiType : Nat
  value : VValue
  deriving DecidableEq, Repr

/-! Primitive constructors generated by `PII_PRIMITIVE_VARIANT_DECL`
(src/core/PiiVariant.h lines 723-743): each sets `_pVTable = 0`,
`_uiType = NAME##Type` and writes `_value.PREFIX##Value = val`. -/

/-- `PiiVariant::PiiVariant(char val)` — tag `CharType`, stores `_value.cValue`. -/
def mkChar (v : Fin 256) : PiiVariant := ⟨CharType, .cValue v⟩

/-- `PiiVariant::PiiVariant(short val)` — tag `ShortType`, stores `_value.sValue`. -/
def mkShort (v : Fin 65536) : PiiVariant := ⟨ShortType, .sValue v⟩

/-- `PiiVariant::PiiVariant(int val)` — tag `IntType`, stores `_value.iValue`. -/
def mkInt (v : Fin 4294967296) : PiiVariant := ⟨IntType, .iValue v⟩

/-- `PiiVariant::PiiVariant(qint64 val)` — tag `Int64Type`, stores `_value.lValue`. -/
def mkInt64 (v : Fin 18446744073709551616) : PiiVariant := ⟨Int64Type, .lValue v⟩

/-- `PiiVariant::PiiVariant(unsigned char val)` — tag `UnsignedCharType`. -/
def mkUChar (v : Fin 256) : PiiVariant := ⟨UnsignedCharType, .ucValue v⟩

/-- `PiiVariant::PiiVariant(unsigned short val)` — tag `UnsignedShortType`. -/
def mkUShort (v : Fin 65536) : PiiVariant := ⟨UnsignedShortType, .usValue v⟩

/-- `PiiVariant::PiiVariant(unsigned int val)` — tag `UnsignedIntType`. -/
def mkUInt (v : Fin 4294967296) : PiiVariant := ⟨UnsignedIntType, .uiValue v⟩

/-- `PiiVariant::PiiVariant(quint64 val)` — tag `UnsignedInt64Type`. -/
def mkUInt64 (v : Fin 18446744073709551616) : PiiVariant := ⟨UnsignedInt64Type, .ulValue v⟩

/-- `PiiVariant::PiiVariant(float val)` — tag `FloatType`; the 32-bit
pattern of the float is stored verbatim. -/
def mkFloat (v : Fin 4294967296) : PiiVariant := ⟨FloatType, .fValue v⟩

/-- `PiiVariant::PiiVariant(double val)` — tag `DoubleType`; the 64-bit
pattern of the double is stored verbatim. -/
def mkDouble (v : Fin 18446744073709551616) : PiiVariant := ⟨DoubleType, .dValue v⟩

/-- `PiiVariant::PiiVariant(bool val)` — tag `BoolType`, stores `_value.bValue`. -/
def mkBool (v : Bool) : PiiVariant := ⟨BoolType, .bValue v⟩

/-- `PiiVariant::PiiVariant(void* val)` — tag `VoidPtrType`, stores the
pointer pattern in `_value.pValue`. -/
def mkVoidPtr (v : Fin 18446744073709551616) : PiiVariant := ⟨VoidPtrType, .pValue v⟩

/-! `valueAs<TYPE>()` specialisations generated by
`PII_PRIMITIVE_VARIANT_DECL`: each returns `_value.PREFIX##Value`, a plain
read of the named union member.  Reading a member other than the active
one reinterprets the bytes; the embedding returns the stored pattern
truncated to the member's width in that case (the claims only exercise
matching reads). -/

/-- The raw bit pattern currently stored in the union. -/
def VValue.bits : VValue → Nat
  | .cValue v => v.val
  | .sValue v => v.val
  | .iValue v => v.val
  | .lValue v => v.val
  | .ucValue v => v.val
  | .usValue v => v.val
  | .uiValue v => v.val
  | .ulValue v => v.val
  | .fValue v => v.val
  | .dValue v => v.val
  | .bValue v => if v then 1 else 0
  | .pValue v => v.val

/-- `valueAs<char>()`: `return _value.cValue;` -/
def valueAsChar (x : PiiVariant) : Fin 256 := ⟨x.value.bits % 256, Nat.mod_lt _ (by decide)⟩

/-- `valueAs<short>()`: `return _value.sValue;` -/
def valueAsShort (x : PiiVariant) : Fin 65536 := ⟨x.value.bits % 65536, Nat.mod_lt _ (by decide)⟩

/-- `valueAs<int>()`: `return _value.iValue;` -/
def valueAsInt (x : PiiVariant) : Fin 4294967296 := ⟨x.value.bits % 4294967296, Nat.mod_lt _ (by decide)⟩

/-- `valueAs<qint64>()`: `return _value.lValue;` -/
def valueAsInt64 (x : PiiVariant) : Fin 18446744073709551616 := ⟨x.value.bits % 18446744073709551616, Nat.mod_lt _ (by decide)⟩

/-- `valueAs<unsigned char>()`: `return _value.ucValue;` -/
def valueAsUChar (x : PiiVariant) : Fin 256 := valueAsChar x

/-- `valueAs<unsigned short>()`: `return _value.usValue;` -/
def valueAsUShort (x : PiiVariant) : Fin 65536 := valueAsShort x

/-- `valueAs<unsigned int>()`: `return _value.uiValue;` -/
def valueAsUInt (x : PiiVariant) : Fin 4294967296 := valueAsInt x

/-- `valueAs<quint64>()`: `return _value.ulValue;` -/
def valueAsUInt64 (x : PiiVariant) : Fin 18446744073709551616 := valueAsInt64 x

/-- `valueAs<float>()`: `return _value.fValue;` (32-bit pattern). -/
def valueAsFloat (x : PiiVariant) : Fin 4294967296 := valueAsInt x

/-- `valueAs<double>()`: `return _value.dValue;` (64-bit pattern). -/
def valueAsDouble (x : PiiVariant) : Fin 18446744073709551616 := valueAsInt64 x

/-- `valueAs<bool>()`: `return _value.bValue;` -/
def valueAsBool (x : PiiVariant) : Bool := x.value.bits % 2 == 1

/-- `valueAs<void*>()`: `return _value.pValue;` -/
def valueAsVoidPtr (x : PiiVariant) : Fin 18446744073709551616 := valueAsInt64 x

/-! ## Converter registry and `convertTo` (src/core/PiiVariant.h lines 794-813)

The registry implementation (`PiiVariant::converterMap`, `setConverter`,
`converter` in PiiVariant.cc) is not under src/.
Modelled from the spec: a process-wide mapping keyed by the
`(fromType, toType)` pair to a conversion function of shape
`(constVariant*, void* outSlot) -> bool`.  A conversion function is
modelled as `PiiVariant → Option VValue`: `some w` means the function
wrote `w` into the out slot and returned `true`; `none` means it returned
`false` and left the slot untouched. -/

/-- `PiiVariant::ConverterFunction` (see the modelling note above). -/
def ConverterFunction : Type := PiiVariant → Option VValue

/-- `PiiVariant::ConverterMap` — `QMap<quint64, ConverterFunction>`,
modelled as an association list keyed by `toKey fromType toType`. -/
def ConverterMap : Type := List (Nat × ConverterFunction)

/-- `PiiVariant::toKey(quint64 fromType, quint64 toType)`:
`return fromType | (toType << 32);` (src/core/PiiVariant.h lines 580-583). -/
def toKey (fromType toType : Nat) : Nat := fromType ||| (toType <<< 32)

/-- `PiiVariant::converter(uint fromType, uint toType)` — registry lookup;
returns the registered function or null.  Modelled from the spec (the
definition lives in PiiVariant.cc, not under src/). -/
def converter (m : ConverterMap) (fromType toType : Nat) : Option ConverterFunction :=
  (m.find? (fun kv => kv.1 == toKey fromType toType)).map Prod.snd

/-- The statically known data of a C++ target type `T` as used by
`convertTo<T>`: its registered tag `Pii::typeId<T>()` and its
default-constructed value `T()`. -/
structure CppType where
  typeId : Nat
  defaultVal : VValue

/-- `template <class T> bool PiiVariant::convertTo(T& value) const`
(src/core/PiiVariant.h lines 794-805):

* if `_uiType == Pii::typeId<T>()`, `value = *ptrAs<T>(); return true;`
* otherwise look up `converter(_uiType, Pii::typeId<T>())`; if non-null,
  return its result, else `return false`.

`slot` is the content of `value` before the call; the returned pair is
`(return value, content of value after the call)`. -/
def convertToRef (m : ConverterMap) (T : CppType) (v : PiiVariant) (slot : VValue) :
    Bool × VValue :=
  if v.uiType == T.typeId then (true, v.value)
  else
    match converter m v.uiType T.typeId with
    | some convert =>
      match convert v with
      | some w => (true, w)
      | none => (false, slot)
    | none => (false, slot)

/-- `template <class T> T PiiVariant::convertTo(bool* ok) const`
(src/core/PiiVariant.h lines 807-813):
`T value = T(); bool bOk = convertTo(value); if (ok) *ok = bOk; return value;`
Returned pair: `(value, bOk)`. -/
def convertToOk (m : ConverterMap) (T : CppType) (v : PiiVariant) : VValue × Bool :=
  let r := convertToRef m T v T.defaultVal
  (r.2, r.1)

/-! ## Operation lifecycle states and flow-controller verdicts -/

/-- `PiiOperation::State` (the shared lifecycle vocabulary). -/
inductive OpState where
  | Stopped
  | Starting
  | Running
  | Pausing
  | Paused
  | Stopping
  | Interrupted
  deriving DecidableEq, Repr

/-- `PiiFlowController::FlowState` — the verdict enum consumed by both
processors. -/
inductive FlowState where
  | IncompleteState
  | ProcessableState
  | SynchronizedState
  | ReconfigurableState
  | PausedState
  | FinishedState
  | ResumedState
  deriving DecidableEq, Repr

/-- `PiiExecutionException` codes thrown by the operation hooks
(`operationPaused` throws `Paused`, `operationStopped` throws `Finished`,
`process` may throw `Error`). -/
inductive ExcCode where
  | Error
  | Paused
  | Finished
  deriving DecidableEq, Repr

/-! ## Synchronous processor (src/ydin/PiiSimpleProcessor.cc)

The embedding covers a one-input operation.  The input socket is an
external collaborator; modelled from the spec: a bounded queue, with
`canReceive()` true while the queue is below capacity and `receive()`
appending.  The flow controller is likewise external; modelled from the
spec (§4.2) as the one-input pass-through controller: `prepareProcess()`
dequeues the head object for `process()` and returns `ProcessableState`,
or returns `IncompleteState` when the queue is empty.

Observable actions are recorded in a trace so that the temporal claims
(ordering and non-nesting of `process()` invocations, absence of
flow-controller queries) are statable. -/

/-- Observable events of a processor run.  `accepted o st` records
`pInput->receive(object)` together with the operation state at the moment
of admission; `flowQuery` records a `prepareProcess()` call;
`procBegin`/`procEnd` bracket one `process()` invocation. -/
inductive Ev where
  | accepted (o : Nat) (st : OpState)
  | flowQuery (res : FlowState)
  | procBegin (o : Nat)
  | procEnd (o : Nat)
  | propertySetApplied
  | errorSignalled
  deriving DecidableEq, Repr

/-- State of a `PiiDefaultOperation` driven by a `PiiSimpleProcessor`:
the two processor flags, the operation state (`_pParentOp->_d()->state`),
the single input socket's queue and capacity, the object staged by the
flow controller for `process()`, and the event trace. -/
structure SPState where
  bReset : Bool
  bProcessing : Bool
  opState : OpState
  queue : List Nat
  current : Option Nat
  capacity : Nat
  trace : List Ev
  deriving DecidableEq, Repr

/-- `PiiInputSocket::canReceive()` — modelled from the spec: the bounded
queue is below capacity. -/
def canReceive (s : SPState) : Bool := s.queue.length < s.capacity

/-- `PiiInputSocket::receive(object)` — modelled from the spec: append to
the queue; the trace records the admission and the operation state at
that moment. -/
def receive (s : SPState) (obj : Nat) : SPState :=
  { s with queue := s.queue ++ [obj], trace := s.trace ++ [.accepted obj s.opState] }

/-- `PiiFlowController::prepareProcess()` for a one-input operation —
modelled from the spec (§4.2): stage the head object for `process()` and
answer `ProcessableState`, or answer `IncompleteState` on an empty queue. -/
def prepareProcess (s : SPState) : FlowState × SPState :=
  match s.queue with
  | o :: rest =>
    (.ProcessableState,
     { s with queue := rest, current := some o,
              trace := s.trace ++ [.flowQuery .ProcessableState] })
  | [] => (.IncompleteState, { s with trace := s.trace ++ [.flowQuery .IncompleteState] })

/-- The `catch (PiiExecutionException& ex)` handler of
`PiiSimpleProcessor::tryToReceive` (src/ydin/PiiSimpleProcessor.cc lines
109-135): relock, clear `_bProcessing`; a `Paused` code with the
operation not concurrently stopped moves to `Paused` and returns true;
otherwise an `Error` code signals `errorOccured`, and in any case the
processor is disarmed and the operation moved to `Stopped` (the function
then returns true at line 140). -/
def handleExc (code : ExcCode) (s : SPState) : Bool × SPState :=
  let s := { s with bProcessing := false }
  if code == .Paused && s.opState != .Stopped then
    (true, { s with opState := .Paused })
  else
    let s := if code == .Error then { s with trace := s.trace ++ [.errorSignalled] } else s
    (true, { s with bReset := false, opState := .Stopped })

/-- Lines 37-38 of `tryToReceive`: an armed operation in `Stopped` or
`Paused` state is moved to `Running` before the socket is consulted. -/
def bumpRunning (s : SPState) : SPState :=
  if s.opState == .Stopped || s.opState == .Paused then { s with opState := .Running } else s

/-- Control positions of the `tryToReceive` interpreter: a (possibly
re-entrant) `tryToReceive(sender, obj)` call, the verdict-dispatch
do-while loop, the re-entrant deliveries made by the operation's
`process()` body, and the loop tail (`lock.relock(); _bProcessing = false;
} while (_bReset);`). -/
inductive SPCall where
  | recv (obj : Nat)
  | loop
  | deliver (objs : List Nat)
  | after
  deriving DecidableEq, Repr

/-- Fuel-indexed interpreter of `PiiSimpleProcessor::tryToReceive`
(src/ydin/PiiSimpleProcessor.cc lines 29-141), line by line:

* `.recv obj`: if `!_bReset` return true (line 35-36); else bump a
  `Stopped`/`Paused` operation to `Running` (lines 37-38); if
  `canReceive()` enqueue (lines 41-43) and, unless `_bProcessing` is set
  (lines 49-50), enter the dispatch loop; else return false (line 138).
* `.loop`: one iteration of the `do { ... } while (_bReset)` loop (lines
  53-107): `prepareProcess()`, break on `IncompleteState` (return true),
  else set `_bProcessing`, release the lock, `sendSyncEvents` (no effect
  on this operation's own state) and dispatch on the verdict (lines
  83-100, including the `case` fall-throughs).  `operationPaused()`
  throws `Paused` and `operationStopped()` throws `Finished`, landing in
  `handleExc`.
* `.deliver objs`: the re-entrant `tryToReceive` calls that the
  operation's `process()` makes while the lock is released, one per
  object that `body` emits back into this operation's input.
* `.after`: relock, clear `_bProcessing`, loop again while `_bReset`
  (lines 104-107), else return true (line 140).

`body o` lists the objects `process()` re-delivers to this same
operation's input socket while handling `o` (the recursion scenario of
the spec); `process()` itself does not throw in the modelled runs.
`none` means the fuel ran out before the call returned. -/
def simpleExec (body : Nat → List Nat) : Nat → SPCall → SPState → Option (Bool × SPState)
  | 0, _, _ => none
  | fuel+1, .recv obj, s =>
    if s.bReset = false then some (true, s)
    else
      let s := bumpRunning s
      if canReceive s then
        let s := receive s obj
        if s.bProcessing then some (true, s)
        else simpleExec body fuel .loop s
      else some (false, s)
  | fuel+1, .loop, s =>
    let r := prepareProcess s
    if r.1 == .IncompleteState then some (true, r.2)
    else
      let s := { r.2 with bProcessing := true }
      match r.1 with
      | .ProcessableState =>
        match s.current with
        | some o =>
          let s := { s with current := none, trace := s.trace ++ [.procBegin o] }
          match simpleExec body fuel (.deliver (body o)) s with
          | none => none
          | some (_, s1) =>
            simpleExec body fuel .after { s1 with trace := s1.trace ++ [.procEnd o] }
        | none => simpleExec body fuel .after s
      | .SynchronizedState => simpleExec body fuel .after s
      | .IncompleteState => simpleExec body fuel .after s
      | .ReconfigurableState =>
        simpleExec body fuel .after { s with trace := s.trace ++ [.propertySetApplied] }
      | .PausedState => some (handleExc .Paused s)
      | .FinishedState => some (handleExc .Finished s)
      | .ResumedState => simpleExec body fuel .after s
  | _+1, .deliver [], s => some (true, s)
  | fuel+1, .deliver (b :: bs), s =>
    match simpleExec body fuel (.recv b) s with
    | none => none
    | some (_, s1) => simpleExec body fuel (.deliver bs) s1
  | fuel+1, .after, s =>
    let s := { s with bProcessing := false }
    if s.bReset then simpleExec body fuel .loop s
    else some (true, s)

/-- `PiiSimpleProcessor::tryToReceive` as the interpreter's entry point. -/
def tryToReceive (body : Nat → List Nat) (fuel : Nat) (obj : Nat) (s : SPState) :
    Option (Bool × SPState) :=
  simpleExec body fuel (.recv obj) s

namespace PiiSimpleProcessor

/-- `PiiSimpleProcessor::check(bool reset)` (lines 143-148):
`_bProcessing = false; if (reset) _bReset = true;` -/
def check (reset : Bool) (s : SPState) : SPState :=
  let s := { s with bProcessing := false }
  if reset then { s with bReset := true } else s

/-- `PiiSimpleProcessor::start()` (lines 150-171).  `hasFC` is
`_pFlowController != 0` (at least one connected input). -/
def start (hasFC : Bool) (s : SPState) : SPState :=
  if s.opState == .Pausing then s
  else if s.opState == .Paused then
    if hasFC then s
    else { s with opState := .Running }
  else { s with opState := .Running }

/-- `PiiSimpleProcessor::stop(PiiOperation::State finalState)` (lines
211-244): only acts on a `Running` operation; with a flow controller it
moves to the intermediate `Stopping`/`Pausing` state, otherwise directly
to the final state (then calls `operationPaused`/`operationStopped`,
whose throw is swallowed by `catch (...) {}`). -/
def stopTo (hasFC : Bool) (finalState : OpState) (s : SPState) : SPState :=
  if s.opState == .Running then
    if hasFC then
      { s with opState := if finalState == .Stopped then .Stopping else .Pausing }
    else
      { s with opState := finalState }
  else s

/-- `PiiSimpleProcessor::pause()` (lines 201-204): `stop(PiiOperation::Paused);` -/
def pause (hasFC : Bool) (s : SPState) : SPState := stopTo hasFC .Paused s

/-- `PiiSimpleProcessor::stop()` (lines 206-209): `stop(PiiOperation::Stopped);` -/
def stop (hasFC : Bool) (s : SPState) : SPState := stopTo hasFC .Stopped s

/-- `PiiSimpleProcessor::interrupt()` (lines 173-178):
`_bReset = false; _pParentOp->setState(PiiOperation::Stopped);` -/
def interrupt (s : SPState) : SPState :=
  { s with bReset := false, opState := .Stopped }

/-- `PiiSimpleProcessor::wait(unsigned long time)` (lines 246-249):
`return true;` — the timeout is ignored and the state untouched. -/
def wait (_time : Nat) (s : SPState) : Bool × SPState := (true, s)

end PiiSimpleProcessor

/-! ## Threaded processor (src/ydin/PiiThreadedProcessor.cc)

State of a `PiiDefaultOperation` driven by a `PiiThreadedProcessor`.  The
wait condition (`PiiWaitCondition` with `NoQueue`) is an external
collaborator; modelled from the spec (§4.5, §5): a single pending-signal
flag — `wakeOne`/`wakeAll` set it, a `wait()` consumes it; at most one
signal is outstanding, extra signals are harmless. -/

/-- Operation state, input queue (one input socket), pending wait-condition
signal, and event trace for the threaded processor. -/
structure TPState where
  opState : OpState
  queue : List Nat
  capacity : Nat
  signalled : Bool
  trace : List Ev
  deriving DecidableEq, Repr

namespace PiiThreadedProcessor

/-- `PiiThreadedProcessor::interrupt()` (lines 82-93): under the state
lock, move to `Interrupted` unless the state is `Stopped`; then
`_inputCondition.wakeOne()` so a thread blocked on input observes it. -/
def interrupt (s : TPState) : TPState :=
  let s := if s.opState != .Stopped then { s with opState := .Interrupted } else s
  { s with signalled := true }

/-- `PiiThreadedProcessor::setStopped()` (lines 41-49), connected to the
thread's `finished()` signal in the constructor (line 26): once the
runner has finished, change to the `Stopped` state. -/
def setStopped (s : TPState) : TPState := { s with opState := .Stopped }

/-- `PiiThreadedProcessor::start()` (lines 61-80): on `Stopped`, move to
`Starting` and spawn the thread; on `Paused`, just wake the condition.
The returned flag records whether `QThread::start` was called. -/
def start (s : TPState) : Bool × TPState :=
  if s.opState == .Stopped then (true, { s with opState := .Starting })
  else if s.opState == .Paused then (false, { s with signalled := true })
  else (false, s)

/-- `PiiThreadedProcessor::pause()` (lines 95-102): only a `Running`
operation moves, to `Pausing`. -/
def pause (s : TPState) : TPState :=
  if s.opState != .Running then s else { s with opState := .Pausing }

/-- `PiiThreadedProcessor::stop()` (lines 110-117): only a `Running`
operation moves, to `Stopping`. -/
def stop (s : TPState) : TPState :=
  if s.opState != .Running then s else { s with opState := .Stopping }

/-- `PiiThreadedProcessor::tryToReceive` (lines 124-139): under the state
lock, enqueue if the socket can receive and signal the condition once;
otherwise report failure. -/
def tryToReceive (obj : Nat) (s : TPState) : Bool × TPState :=
  if s.queue.length < s.capacity then
    (true, { s with queue := s.queue ++ [obj],
                    trace := s.trace ++ [.accepted obj s.opState], signalled := true })
  else (false, s)

/-- `PiiThreadedProcessor::prepareAndProcess()` (lines 141-182) with the
one-input pass-through flow controller (see `prepareProcess`): loop —
re-signal the condition (`_inputCondition.wakeAll()`, line 151), query
the controller, return on `IncompleteState`, else dispatch; with the
pass-through controller the verdict on a non-empty queue is always
`ProcessableState`, so the dispatch runs `processLocked()` on the staged
object (the modelled `process()` emits nothing and does not throw). -/
def prepareAndProcess : Nat → TPState → Option TPState
  | 0, _ => none
  | fuel+1, s =>
    let s := { s with signalled := true }
    match s.queue with
    | [] => some { s with trace := s.trace ++ [.flowQuery .IncompleteState] }
    | o :: rest =>
      prepareAndProcess fuel
        { s with queue := rest,
                 trace := s.trace ++ [.flowQuery .ProcessableState, .procBegin o, .procEnd o] }

/-- `PiiThreadedProcessor::run()` (lines 199-214) for an operation with
connected inputs (`_pFlowController != 0`), entered at the top of the
`while (state != Interrupted)` loop: block on `_inputCondition.wait()`
until a signal is pending, consume it, and if `interrupt()` terminated
the wait, return; otherwise `prepareAndProcess()` and loop.  `none`
means the thread is still blocked (or out of fuel); `some s` is the
state at the moment `run()` returns. -/
def runLoop : Nat → TPState → Option TPState
  | 0, _ => none
  | fuel+1, s =>
    if s.opState == .Interrupted then some s
    else if s.signalled then
      let s := { s with signalled := false }
      if s.opState == .Interrupted then some s
      else
        match prepareAndProcess fuel s with
        | none => none
        | some s1 => runLoop fuel s1
    else none

end PiiThreadedProcessor

/-- Events that are admissible at admission time: an `accepted` event
must not record `Stopped` or `Paused` (the pre-admission bump rules
those out); all other events are unconstrained. -/
def accOk : Ev → Bool
  | .accepted _ st => st != .Stopped && st != .Paused
  | _ => true

/-- The `procBegin`/`procEnd` events of a trace, in order: exhibits the
bracketing of `process()` invocations. -/
def procEvents (tr : List Ev) : List Ev :=
  tr.filter fun e =>
    match e with
    | .procBegin _ => true
    | .procEnd _ => true
    | _ => false

/-! ## Helper lemmas -/

/-- Masking out the low five bits of a 32-bit value: for `t < 2^32`,
`t &&& 0xffffffe0` is `t` rounded down to a multiple of 32. -/
theorem and_mask32 (t : Nat) (ht : t < 4294967296) :
    t &&& 0xffffffe0 = t / 32 * 32 := by
  have h32 : t / 32 * 32 = (t >>> 5) <<< 5 := by
    rw [Nat.shiftRight_eq_div_pow, Nat.shiftLeft_eq]
  rw [h32]
  apply Nat.eq_of_testBit_eq
  intro i
  rw [Nat.testBit_and, Nat.testBit_shiftLeft, Nat.testBit_shiftRight]
  by_cases h5 : i < 5
  · have hm : Nat.testBit 0xffffffe0 i = false := by interval_cases i <;> decide
    have hge : decide (i ≥ 5) = false := by simp; omega
    simp [hm, hge]
  · by_cases hb : i < 32
    · have hm : Nat.testBit 0xffffffe0 i = true := by interval_cases i <;> decide
      have hge : decide (i ≥ 5) = true := by simp; omega
      have hi : 5 + (i - 5) = i := by omega
      simp [hm, hge, hi]
    · have hti : t.testBit i = false := by
        apply Nat.testBit_lt_two_pow
        calc t < 4294967296 := ht
        _ = 2 ^ 32 := by norm_num
        _ ≤ 2 ^ i := Nat.pow_le_pow_right (by norm_num) (by omega)
      have hi : 5 + (i - 5) = i := by omega
      simp [hti, hi]

theorem receive_trace (s : SPState) (obj : Nat) :
    (receive s obj).trace = s.trace ++ [.accepted obj s.opState] := rfl

theorem receive_opState (s : SPState) (obj : Nat) : (receive s obj).opState = s.opState := rfl

theorem bumpRunning_not_stopped (s : SPState) :
    (bumpRunning s).opState ≠ .Stopped ∧ (bumpRunning s).opState ≠ .Paused := by
  unfold bumpRunning
  split
  · exact ⟨by simp, by simp⟩
  · rename_i hcond
    simp at hcond
    exact ⟨hcond.1, hcond.2⟩

theorem bumpRunning_fields (s : SPState) :
    (bumpRunning s).bReset = s.bReset ∧ (bumpRunning s).bProcessing = s.bProcessing ∧
    (bumpRunning s).queue = s.queue ∧ (bumpRunning s).current = s.current ∧
    (bumpRunning s).capacity = s.capacity ∧ (bumpRunning s).trace = s.trace := by
  unfold bumpRunning
  split <;> exact ⟨rfl, rfl, rfl, rfl, rfl, rfl⟩

theorem bumpRunning_opState_or (s : SPState) :
    (bumpRunning s).opState = s.opState ∨ (bumpRunning s).opState = .Running := by
  unfold bumpRunning
  split
  · exact Or.inr rfl
  · exact Or.inl rfl

theorem forall_accOk_append {L1 L2 : List Ev} (h1 : ∀ e ∈ L1, accOk e = true)
    (h2 : ∀ e ∈ L2, accOk e = true) : ∀ e ∈ L1 ++ L2, accOk e = true := by
  intro e he
  rcases List.mem_append.mp he with h | h
  · exact h1 e h
  · exact h2 e h

theorem simpleExec_inv (body : Nat → List Nat) : ∀ (fuel : Nat) (c : SPCall) (s : SPState)
    (b : Bool) (s1 : SPState), simpleExec body fuel c s = some (b, s1) →
    ((c = SPCall.loop ∨ c = SPCall.after) → b = true) ∧
    (∃ Δ, s1.trace = s.trace ++ Δ ∧ ∀ e ∈ Δ, accOk e = true) ∧
    (s1.opState = s.opState ∨ s1.opState = .Running ∨ s1.opState = .Paused ∨
      s1.opState = .Stopped) := by
  intro fuel
  induction fuel with
  | zero => intro c s b s1 h; simp [simpleExec] at h
  | succ n ih =>
    intro c s b s1 h
    match c with
    | .recv obj =>
      simp only [simpleExec] at h
      by_cases hR : s.bReset = false
      · rw [if_pos hR] at h
        injection h with h
        injection h with h1 h2
        subst h1; subst h2
        exact ⟨fun hc => by rcases hc with hc | hc <;> exact absurd hc (by simp),
               ⟨[], by simp, by simp⟩, Or.inl rfl⟩
      · rw [if_neg hR] at h
        by_cases hC : canReceive (bumpRunning s) = true
        · rw [if_pos hC] at h
          by_cases hP : (receive (bumpRunning s) obj).bProcessing = true
          · rw [if_pos hP] at h
            injection h with h
            injection h with h1 h2
            subst h1; subst h2
            refine ⟨fun hc => by rcases hc with hc | hc <;> exact absurd hc (by simp),
                    ⟨[.accepted obj (bumpRunning s).opState], ?_, ?_⟩, ?_⟩
            · rw [receive_trace, (bumpRunning_fields s).2.2.2.2.2]
            · intro e he
              simp at he
              subst he
              simp [accOk]
              have h3 := bumpRunning_not_stopped s
              exact ⟨h3.1, h3.2⟩
            · rw [receive_opState]
              rcases bumpRunning_opState_or s with h2 | h2
              · exact Or.inl h2
              · exact Or.inr (Or.inl h2)
          · rw [if_neg hP] at h
            obtain ⟨_, ⟨Δ, hΔ, hok⟩, hst⟩ := ih .loop _ b s1 h
            refine ⟨fun hc => by rcases hc with hc | hc <;> exact absurd hc (by simp),
                    ⟨.accepted obj (bumpRunning s).opState :: Δ, ?_, ?_⟩, ?_⟩
            · rw [hΔ, receive_trace, (bumpRunning_fields s).2.2.2.2.2]
              simp
            · intro e he
              rcases List.mem_cons.mp he with rfl | he
              · simp [accOk]
                have h3 := bumpRunning_not_stopped s
                exact ⟨h3.1, h3.2⟩
              · exact hok e he
            · rcases hst with h1 | h1
              · rw [receive_opState] at h1
                rcases bumpRunning_opState_or s with h2 | h2
                · exact Or.inl (h1.trans h2)
                · exact Or.inr (Or.inl (h1.trans h2))
              · exact Or.inr h1
        · rw [if_neg hC] at h
          injection h with h
          injection h with h1 h2
          subst h1; subst h2
          refine ⟨fun hc => by rcases hc with hc | hc <;> exact absurd hc (by simp),
                  ⟨[], ?_, by simp⟩, ?_⟩
          · rw [(bumpRunning_fields s).2.2.2.2.2]
            simp
          · rcases bumpRunning_opState_or s with h2 | h2
            · exact Or.inl h2
            · exact Or.inr (Or.inl h2)
    | .loop =>
      simp only [simpleExec] at h
      cases hq : s.queue with
      | nil =>
        simp [prepareProcess, hq] at h
        obtain ⟨hb, hs⟩ := h
        subst hb
        refine ⟨fun _ => rfl, ⟨[.flowQuery .IncompleteState], ?_, by simp [accOk]⟩, ?_⟩
        · rw [← hs]
        · rw [← hs]
          exact Or.inl rfl
      | cons o rest =>
        simp only [prepareProcess, hq] at h
        simp only [beq_iff_eq, reduceCtorEq, if_false] at h
        cases hd : simpleExec body n
            (.deliver (body o))
            { s with queue := rest, current := none, bProcessing := true,
                     trace := (s.trace ++ [.flowQuery .ProcessableState]) ++ [.procBegin o] } with
        | none => rw [hd] at h; simp at h
        | some rd =>
          rw [hd] at h
          obtain ⟨bd, sd⟩ := rd
          simp only at h
          obtain ⟨_, ⟨Δ1, hΔ1, hok1⟩, hst1⟩ := ih _ _ _ _ hd
          obtain ⟨hbt, ⟨Δ2, hΔ2, hok2⟩, hst2⟩ := ih _ _ _ _ h
          refine ⟨fun _ => hbt (Or.inr rfl),
                  ⟨[.flowQuery .ProcessableState, .procBegin o] ++ Δ1 ++ [.procEnd o] ++ Δ2,
                   ?_, ?_⟩, ?_⟩
          · rw [hΔ2]
            simp only
            rw [hΔ1]
            simp
          · refine forall_accOk_append (forall_accOk_append (forall_accOk_append ?_ hok1) ?_) hok2
            · intro e he
              rcases List.mem_cons.mp he with rfl | he2
              · rfl
              · rcases List.mem_cons.mp he2 with rfl | he3
                · rfl
                · exact absurd he3 (by simp)
            · intro e he
              rcases List.mem_cons.mp he with rfl | he2
              · rfl
              · exact absurd he2 (by simp)
          · have h1 : sd.opState = s.opState ∨ sd.opState = .Running ∨
                sd.opState = .Paused ∨ sd.opState = .Stopped := hst1
            have h2 : s1.opState = sd.opState ∨ s1.opState = .Running ∨
                s1.opState = .Paused ∨ s1.opState = .Stopped := hst2
            rcases h2 with h2 | h2
            · rw [h2]; exact h1
            · exact Or.inr h2
    | .deliver objs =>
      match objs with
      | [] =>
        simp only [simpleExec] at h
        injection h with h
        injection h with h1 h2
        subst h1; subst h2
        exact ⟨fun hc => by rcases hc with hc | hc <;> exact absurd hc (by simp),
               ⟨[], by simp, by simp⟩, Or.inl rfl⟩
      | d :: ds =>
        simp only [simpleExec] at h
        cases hd : simpleExec body n (.recv d) s with
        | none => rw [hd] at h; simp at h
        | some rd =>
          rw [hd] at h
          obtain ⟨bd, sd⟩ := rd
          simp only at h
          obtain ⟨_, ⟨Δ1, hΔ1, hok1⟩, hst1⟩ := ih _ _ _ _ hd
          obtain ⟨_, ⟨Δ2, hΔ2, hok2⟩, hst2⟩ := ih _ _ _ _ h
          refine ⟨fun hc => by rcases hc with hc | hc <;> exact absurd hc (by simp),
                  ⟨Δ1 ++ Δ2, ?_, ?_⟩, ?_⟩
          · rw [hΔ2, hΔ1]
            simp
          · intro e he
            rcases List.mem_append.mp he with he | he
            · exact hok1 e he
            · exact hok2 e he
          · rcases hst2 with h2 | h2
            · rw [h2]; exact hst1
            · exact Or.inr h2
    | .after =>
      simp only [simpleExec] at h
      by_cases hR : s.bReset = true
      · rw [if_pos (by simpa using hR)] at h
        obtain ⟨hbt, ⟨Δ, hΔ, hok⟩, hst⟩ := ih _ _ _ _ h
        exact ⟨fun _ => hbt (Or.inl rfl), ⟨Δ, hΔ, hok⟩, hst⟩
      · rw [if_neg (by simpa using hR)] at h
        injection h with h
        injection h with h1 h2
        subst h1; subst h2
        exact ⟨fun _ => rfl, ⟨[], by simp, by simp⟩, Or.inl rfl⟩


theorem canReceive_bumpRunning (s : SPState) : canReceive (bumpRunning s) = canReceive s := by
  unfold canReceive
  rw [(bumpRunning_fields s).2.2.1, (bumpRunning_fields s).2.2.2.2.1]

theorem bumpRunning_of_stopped_or_paused (s : SPState)
    (h : s.opState = .Stopped ∨ s.opState = .Paused) :
    (bumpRunning s).opState = .Running := by
  unfold bumpRunning
  rw [if_pos]
  rcases h with h | h <;> simp [h]

/-- An admission call on an armed operation with room in the socket
returns true and extends the trace with the admission event, recording
the post-bump operation state. -/
theorem recv_accept_trace (body : Nat → List Nat) (fuel obj : Nat) (s : SPState)
    (b : Bool) (s1 : SPState) (hR : s.bReset = true) (hC : canReceive s = true)
    (h : simpleExec body fuel (.recv obj) s = some (b, s1)) :
    b = true ∧ ∃ Δ, s1.trace = s.trace ++ .accepted obj (bumpRunning s).opState :: Δ := by
  match fuel with
  | 0 => simp [simpleExec] at h
  | n+1 =>
    simp only [simpleExec] at h
    rw [if_neg (by simp [hR])] at h
    rw [if_pos ((canReceive_bumpRunning s).trans hC)] at h
    by_cases hP : (receive (bumpRunning s) obj).bProcessing = true
    · rw [if_pos hP] at h
      injection h with h
      injection h with h1 h2
      subst h1; subst h2
      refine ⟨rfl, [], ?_⟩
      rw [receive_trace, (bumpRunning_fields s).2.2.2.2.2]
    · rw [if_neg hP] at h
      obtain ⟨hbt, ⟨Δ, hΔ, _⟩, _⟩ := simpleExec_inv body n .loop _ b s1 h
      refine ⟨hbt (Or.inl rfl), Δ, ?_⟩
      rw [hΔ, receive_trace, (bumpRunning_fields s).2.2.2.2.2]
      simp

/-! ## Claim theorems -/

/-- C3 counterexample: the claim asserts `isPrimitive(t)` is true for all
`t ≤ 0x1F` and `isMatrixType(t)` is true for all `0x40 ≤ t ≤ 0x7F`; but
the code has `isPrimitive(0x1A) = false` (the test is
`t <= LastPrimitiveType` with `LastPrimitiveType = 0x19`) and
`isMatrixType(0x60) = false` (the mask test covers only `0x40`–`0x5F`). -/
theorem claim_C3_counterexample :
    ((0x1a : Nat) ≤ 0x1f ∧ isPrimitive 0x1a = false) ∧
    ((0x40 : Nat) ≤ 0x60 ∧ (0x60 : Nat) ≤ 0x7f ∧ isMatrixType 0x60 = false) := by
  decide

/-- C3 (amended): for every 32-bit type tag `t`, `isPrimitive t` holds iff
`t ≤ 0x19` (`LastPrimitiveType`), `isControlType t` holds iff
`0x20 ≤ t ≤ 0x3F`, and `isMatrixType t` holds iff `0x40 ≤ t ≤ 0x5F`. -/
theorem claim_C3 (t : Nat) (ht : t < 4294967296) :
    (isPrimitive t = true ↔ t ≤ 0x19) ∧
    (isControlType t = true ↔ 0x20 ≤ t ∧ t ≤ 0x3f) ∧
    (isMatrixType t = true ↔ 0x40 ≤ t ∧ t ≤ 0x5f) := by
  refine ⟨?_, ?_, ?_⟩
  · simp [isPrimitive, LastPrimitiveType, VoidPtrType]
  · unfold isControlType
    rw [beq_iff_eq, and_mask32 t ht]
    omega
  · unfold isMatrixType
    rw [beq_iff_eq, and_mask32 t ht]
    omega

/-- C3 witness: the amended characterisation evaluated at tag `0x25`
(a control tag). -/
theorem claim_C3_witness :
    (isPrimitive 0x25 = true ↔ (0x25 : Nat) ≤ 0x19) ∧
    (isControlType 0x25 = true ↔ (0x20 : Nat) ≤ 0x25 ∧ (0x25 : Nat) ≤ 0x3f) ∧
    (isMatrixType 0x25 = true ↔ (0x40 : Nat) ≤ 0x25 ∧ (0x25 : Nat) ≤ 0x5f) :=
  claim_C3 0x25 (by norm_num)

/-- C4: `convertTo<T>` copies directly and succeeds when the variant's tag
equals `Pii::typeId<T>()` (reflexivity); otherwise it invokes the
registered converter for `(type(), typeId<T>())`, returning false with a
default-constructed `T` when no converter is registered or the converter
reports failure, and the converter's output with true when it succeeds. -/
theorem claim_C4 :
    (∀ (m : ConverterMap) (T : CppType) (v : PiiVariant) (slot : VValue),
       v.uiType = T.typeId →
       convertToRef m T v slot = (true, v.value) ∧ convertToOk m T v = (v.value, true)) ∧
    (∀ (m : ConverterMap) (T : CppType) (v : PiiVariant),
       v.uiType ≠ T.typeId → converter m v.uiType T.typeId = none →
       convertToOk m T v = (T.defaultVal, false)) ∧
    (∀ (m : ConverterMap) (T : CppType) (v : PiiVariant) (f : ConverterFunction),
       v.uiType ≠ T.typeId → converter m v.uiType T.typeId = some f →
       f v = none → convertToOk m T v = (T.defaultVal, false)) ∧
    (∀ (m : ConverterMap) (T : CppType) (v : PiiVariant) (f : ConverterFunction) (w : VValue),
       v.uiType ≠ T.typeId → converter m v.uiType T.typeId = some f →
       f v = some w → convertToOk m T v = (w, true)) := by
  refine ⟨?_, ?_, ?_, ?_⟩
  · intro m T v slot h
    simp [convertToRef, convertToOk, h]
  · intro m T v h hc
    simp [convertToRef, convertToOk, h, hc]
  · intro m T v f h hc hf
    simp [convertToRef, convertToOk, h, hc, hf]
  · intro m T v f w h hc hf
    simp [convertToRef, convertToOk, h, hc, hf]

/-- C4 witness: the four cases at concrete inputs — an `int` variant
converted to `int` (direct copy), to `double` with an empty registry, and
with a failing and a succeeding registered converter. -/
theorem claim_C4_witness :
    (convertToRef [] ⟨IntType, .iValue 0⟩ (mkInt 5) (.iValue 0) = (true, .iValue 5) ∧
     convertToOk [] ⟨IntType, .iValue 0⟩ (mkInt 5) = (.iValue 5, true)) ∧
    (convertToOk [] ⟨DoubleType, .dValue 0⟩ (mkInt 5) = (.dValue 0, false)) ∧
    (convertToOk [(toKey IntType DoubleType, fun _ => none)]
       ⟨DoubleType, .dValue 0⟩ (mkInt 5) = (.dValue 0, false)) ∧
    (convertToOk [(toKey IntType DoubleType, fun _ => some (.dValue 7))]
       ⟨DoubleType, .dValue 0⟩ (mkInt 5) = (.dValue 7, true)) :=
  ⟨claim_C4.1 [] ⟨IntType, .iValue 0⟩ (mkInt 5) (.iValue 0) rfl,
   claim_C4.2.1 [] ⟨DoubleType, .dValue 0⟩ (mkInt 5) (by decide) rfl,
   claim_C4.2.2.1 [(toKey IntType DoubleType, fun _ => none)]
     ⟨DoubleType, .dValue 0⟩ (mkInt 5) (fun _ => none) (by decide) rfl rfl,
   claim_C4.2.2.2 [(toKey IntType DoubleType, fun _ => some (.dValue 7))]
     ⟨DoubleType, .dValue 0⟩ (mkInt 5) (fun _ => some (.dValue 7)) (.dValue 7)
     (by decide) rfl rfl⟩

/-- C8: for every primitive type `T` (char, short, int, qint64, unsigned
char, unsigned short, unsigned int, quint64, float, double, bool, void*)
and every value `v` of type `T`, `PiiVariant(v).valueAs<T>() == v` and the
variant's `type()` equals `T`'s primitive type ID. -/
theorem claim_C8 :
    (∀ v, valueAsChar (mkChar v) = v ∧ (mkChar v).uiType = CharType) ∧
    (∀ v, valueAsShort (mkShort v) = v ∧ (mkShort v).uiType = ShortType) ∧
    (∀ v, valueAsInt (mkInt v) = v ∧ (mkInt v).uiType = IntType) ∧
    (∀ v, valueAsInt64 (mkInt64 v) = v ∧ (mkInt64 v).uiType = Int64Type) ∧
    (∀ v, valueAsUChar (mkUChar v) = v ∧ (mkUChar v).uiType = UnsignedCharType) ∧
    (∀ v, valueAsUShort (mkUShort v) = v ∧ (mkUShort v).uiType = UnsignedShortType) ∧
    (∀ v, valueAsUInt (mkUInt v) = v ∧ (mkUInt v).uiType = UnsignedIntType) ∧
    (∀ v, valueAsUInt64 (mkUInt64 v) = v ∧ (mkUInt64 v).uiType = UnsignedInt64Type) ∧
    (∀ v, valueAsFloat (mkFloat v) = v ∧ (mkFloat v).uiType = FloatType) ∧
    (∀ v, valueAsDouble (mkDouble v) = v ∧ (mkDouble v).uiType = DoubleType) ∧
    (∀ v, valueAsBool (mkBool v) = v ∧ (mkBool v).uiType = BoolType) ∧
    (∀ v, valueAsVoidPtr (mkVoidPtr v) = v ∧ (mkVoidPtr v).uiType = VoidPtrType) := by
  refine ⟨?_, ?_, ?_, ?_, ?_, ?_, ?_, ?_, ?_, ?_, ?_, ?_⟩ <;>
    intro v
  case _ => exact ⟨Fin.ext (Nat.mod_eq_of_lt v.isLt), rfl⟩
  case _ => exact ⟨Fin.ext (Nat.mod_eq_of_lt v.isLt), rfl⟩
  case _ => exact ⟨Fin.ext (Nat.mod_eq_of_lt v.isLt), rfl⟩
  case _ => exact ⟨Fin.ext (Nat.mod_eq_of_lt v.isLt), rfl⟩
  case _ => exact ⟨Fin.ext (Nat.mod_eq_of_lt v.isLt), rfl⟩
  case _ => exact ⟨Fin.ext (Nat.mod_eq_of_lt v.isLt), rfl⟩
  case _ => exact ⟨Fin.ext (Nat.mod_eq_of_lt v.isLt), rfl⟩
  case _ => exact ⟨Fin.ext (Nat.mod_eq_of_lt v.isLt), rfl⟩
  case _ => exact ⟨Fin.ext (Nat.mod_eq_of_lt v.isLt), rfl⟩
  case _ => exact ⟨Fin.ext (Nat.mod_eq_of_lt v.isLt), rfl⟩
  case _ => exact ⟨by cases v <;> rfl, rfl⟩
  case _ => exact ⟨Fin.ext (Nat.mod_eq_of_lt v.isLt), rfl⟩

/-- C10: `PiiSimpleProcessor::wait(timeout)` returns true for every
timeout value and every operation state, leaving the state untouched
(it never blocks: the body is `return true;`). -/
theorem claim_C10 (t : Nat) (s : SPState) : PiiSimpleProcessor.wait t s = (true, s) := rfl

/-- C1: while an admission call is inside the verdict-dispatch loop
(`_bProcessing` set), a re-entrant `tryToReceive` on the same operation
only enqueues and returns true — it does not query the flow controller or
invoke `process()` (the result state is exactly `receive (bumpRunning s) obj`,
whose trace gains only the admission event).  In the scenario — armed,
started, one input, `A = 1` delivered and `B = 2` delivered re-entrantly
during `process(A)` — the run yields exactly two `process()` invocations,
in order A then B, never nested: the trace's process events are
`[procBegin 1, procEnd 1, procBegin 2, procEnd 2]`. -/
theorem claim_C1 :
    (∀ (body : Nat → List Nat) (fuel : Nat) (s : SPState) (obj : Nat),
       s.bReset = true → s.bProcessing = true → canReceive s = true →
       simpleExec body (fuel+1) (.recv obj) s = some (true, receive (bumpRunning s) obj) ∧
       (receive (bumpRunning s) obj).trace =
         s.trace ++ [.accepted obj (bumpRunning s).opState]) ∧
    (simpleExec (fun o => if o == 1 then [2] else []) 20 (.recv 1)
       ⟨true, false, .Running, [], none, 3, []⟩ =
       some (true, ⟨true, false, .Running, [], none, 3,
         [.accepted 1 .Running, .flowQuery .ProcessableState, .procBegin 1,
          .accepted 2 .Running, .procEnd 1, .flowQuery .ProcessableState,
          .procBegin 2, .procEnd 2, .flowQuery .IncompleteState]⟩) ∧
     procEvents
         [.accepted 1 .Running, .flowQuery .ProcessableState, .procBegin 1,
          .accepted 2 .Running, .procEnd 1, .flowQuery .ProcessableState,
          .procBegin 2, .procEnd 2, .flowQuery .IncompleteState] =
       [.procBegin 1, .procEnd 1, .procBegin 2, .procEnd 2]) := by
  refine ⟨?_, by decide, by decide⟩
  intro body fuel s obj hR hP hC
  constructor
  · simp only [simpleExec]
    rw [if_neg (by simp [hR]), if_pos ((canReceive_bumpRunning s).trans hC)]
    rw [if_pos (by rw [show (receive (bumpRunning s) obj).bProcessing = s.bProcessing from
          (bumpRunning_fields s).2.1]; exact hP)]
  · rw [receive_trace, (bumpRunning_fields s).2.2.2.2.2]

/-- C1 witness: the re-entrant guard at a concrete armed, processing
state. -/
theorem claim_C1_witness :
    simpleExec (fun _ => []) 1 (.recv 7) ⟨true, true, .Running, [], none, 2, []⟩ =
      some (true, receive (bumpRunning ⟨true, true, .Running, [], none, 2, []⟩) 7) ∧
    (receive (bumpRunning ⟨true, true, .Running, [], none, 2, []⟩) 7).trace =
      [] ++ [.accepted 7 (bumpRunning ⟨true, true, .Running, [], none, 2, []⟩).opState] :=
  claim_C1.1 (fun _ => []) 0 ⟨true, true, .Running, [], none, 2, []⟩ 7 rfl rfl rfl

/-- C2 counterexample: on an armed operation in `Stopped` state whose
socket is full, `tryToReceive` returns false — but the operation state
has changed to `Running` (the bump at lines 37-38 happens before the
`canReceive()` check), contradicting "leaves the socket and the operation
state unchanged". -/
theorem claim_C2_counterexample :
    simpleExec (fun _ => []) 5 (.recv 7) ⟨true, false, .Stopped, [9, 9], none, 2, []⟩ =
      some (false, ⟨true, false, .Running, [9, 9], none, 2, []⟩) ∧
    OpState.Running ≠ OpState.Stopped := by
  exact ⟨rfl, by decide⟩

/-- C2 (amended): an unarmed processor returns true leaving everything
unchanged; an armed one first bumps a `Stopped`/`Paused` operation to
`Running`, and only then consults `canReceive()` — when the socket is
full it returns false with the socket unchanged but the state possibly
bumped; when the socket has room the object is admitted and the call
returns true. -/
theorem claim_C2 :
    (∀ (body : Nat → List Nat) (fuel obj : Nat) (s : SPState), s.bReset = false →
       simpleExec body (fuel+1) (.recv obj) s = some (true, s)) ∧
    (∀ (body : Nat → List Nat) (fuel obj : Nat) (s : SPState), s.bReset = true →
       canReceive s = false →
       simpleExec body (fuel+1) (.recv obj) s = some (false, bumpRunning s)) ∧
    (∀ (body : Nat → List Nat) (fuel obj : Nat) (s : SPState) (b : Bool) (s1 : SPState),
       s.bReset = true → canReceive s = true →
       simpleExec body fuel (.recv obj) s = some (b, s1) →
       b = true ∧ ∃ Δ, s1.trace = s.trace ++ .accepted obj (bumpRunning s).opState :: Δ) := by
  refine ⟨?_, ?_, ?_⟩
  · intro body fuel obj s hR
    simp only [simpleExec]
    rw [if_pos hR]
  · intro body fuel obj s hR hC
    simp only [simpleExec]
    rw [if_neg (by simp [hR]), if_neg (by rw [canReceive_bumpRunning s, hC]; simp)]
  · exact fun body fuel obj s b s1 hR hC h => recv_accept_trace body fuel obj s b s1 hR hC h

/-- C2 witness: the three branches at concrete states — unarmed, armed
with a full socket, armed with room. -/
theorem claim_C2_witness :
    (simpleExec (fun _ => []) 3 (.recv 4) ⟨false, false, .Running, [], none, 2, []⟩ =
      some (true, ⟨false, false, .Running, [], none, 2, []⟩)) ∧
    (simpleExec (fun _ => []) 3 (.recv 4) ⟨true, false, .Paused, [8], none, 1, []⟩ =
      some (false, bumpRunning ⟨true, false, .Paused, [8], none, 1, []⟩)) ∧
    (true = true ∧ ∃ Δ,
      (⟨true, false, .Running, [], none, 2,
        [.accepted 3 .Running, .flowQuery .ProcessableState, .procBegin 3, .procEnd 3,
         .flowQuery .IncompleteState]⟩ : SPState).trace =
      ([] : List Ev) ++
        .accepted 3 (bumpRunning ⟨true, false, .Running, [], none, 2, []⟩).opState :: Δ) :=
  ⟨claim_C2.1 (fun _ => []) 2 4 ⟨false, false, .Running, [], none, 2, []⟩ rfl,
   claim_C2.2.1 (fun _ => []) 2 4 ⟨true, false, .Paused, [8], none, 1, []⟩ rfl rfl,
   claim_C2.2.2 (fun _ => []) 10 3 ⟨true, false, .Running, [], none, 2, []⟩ true
     ⟨true, false, .Running, [], none, 2,
       [.accepted 3 .Running, .flowQuery .ProcessableState, .procBegin 3, .procEnd 3,
        .flowQuery .IncompleteState]⟩ rfl rfl rfl⟩


/-- C9 counterexample: arm with `check(true)`, `start()` (state becomes
`Running`), then `stop()` with a connected input (state becomes
`Stopping`, `_bReset` still set).  A subsequent admission call accepts
the object while the state is `Stopping`, not `Running` — refuting
"whenever an armed synchronous operation accepts an object its state is
Running". -/
theorem claim_C9_counterexample :
    (PiiSimpleProcessor.stop true (PiiSimpleProcessor.start true
        (PiiSimpleProcessor.check true ⟨false, false, .Stopped, [], none, 3, []⟩))) =
      ⟨true, false, .Stopping, [], none, 3, []⟩ ∧
    simpleExec (fun _ => []) 10 (.recv 5) ⟨true, false, .Stopping, [], none, 3, []⟩ =
      some (true, ⟨true, false, .Stopping, [], none, 3,
        [.accepted 5 .Stopping, .flowQuery .ProcessableState, .procBegin 5, .procEnd 5,
         .flowQuery .IncompleteState]⟩) ∧
    OpState.Stopping ≠ OpState.Running := by
  exact ⟨rfl, rfl, by decide⟩

/-- C9 (amended): an admission call on an armed operation in `Stopped` or
`Paused` state sets the state to `Running` before enqueuing, so the
admission event records state `Running`; in general every admission
event of any run records a state other than `Stopped` and `Paused`
(but not necessarily `Running`: e.g. `Stopping` is possible). -/
theorem claim_C9 :
    (∀ (body : Nat → List Nat) (fuel obj : Nat) (s : SPState) (b : Bool) (s1 : SPState),
       s.bReset = true → (s.opState = .Stopped ∨ s.opState = .Paused) →
       canReceive s = true →
       simpleExec body fuel (.recv obj) s = some (b, s1) →
       ∃ Δ, s1.trace = s.trace ++ .accepted obj .Running :: Δ) ∧
    (∀ (body : Nat → List Nat) (fuel : Nat) (c : SPCall) (s : SPState) (b : Bool)
       (s1 : SPState), simpleExec body fuel c s = some (b, s1) →
       ∃ Δ, s1.trace = s.trace ++ Δ ∧ ∀ e ∈ Δ, accOk e = true) := by
  constructor
  · intro body fuel obj s b s1 hR hSP hC h
    have h2 := recv_accept_trace body fuel obj s b s1 hR hC h
    rw [bumpRunning_of_stopped_or_paused s hSP] at h2
    exact h2.2
  · intro body fuel c s b s1 h
    exact (simpleExec_inv body fuel c s b s1 h).2.1

/-- C9 witness: an armed `Paused` operation accepting an object records
the admission at state `Running`; the general invariant evaluated on a
concrete run. -/
theorem claim_C9_witness :
    (∃ Δ, (⟨true, false, .Running, [], none, 2,
        [.accepted 6 .Running, .flowQuery .ProcessableState, .procBegin 6, .procEnd 6,
         .flowQuery .IncompleteState]⟩ : SPState).trace =
      ([] : List Ev) ++ .accepted 6 .Running :: Δ) ∧
    (∃ Δ, (⟨true, false, .Running, [], none, 2,
        [.accepted 6 .Running, .flowQuery .ProcessableState, .procBegin 6, .procEnd 6,
         .flowQuery .IncompleteState]⟩ : SPState).trace = ([] : List Ev) ++ Δ ∧
      ∀ e ∈ Δ, accOk e = true) :=
  ⟨claim_C9.1 (fun _ => []) 10 6 ⟨true, false, .Paused, [], none, 2, []⟩ true
     ⟨true, false, .Running, [], none, 2,
       [.accepted 6 .Running, .flowQuery .ProcessableState, .procBegin 6, .procEnd 6,
        .flowQuery .IncompleteState]⟩ rfl (Or.inr rfl) rfl rfl,
   claim_C9.2 (fun _ => []) 10 (.recv 6) ⟨true, false, .Paused, [], none, 2, []⟩ true
     ⟨true, false, .Running, [], none, 2,
       [.accepted 6 .Running, .flowQuery .ProcessableState, .procBegin 6, .procEnd 6,
        .flowQuery .IncompleteState]⟩ rfl⟩


/-- C5 counterexample: `PiiSimpleProcessor::interrupt()` sets the state
to `Stopped`, never `Interrupted`; and `PiiThreadedProcessor::interrupt()`
on a `Stopped` operation leaves it `Stopped` — refuting "interrupt()
unconditionally moves the operation to the Interrupted state from every
state, for both processor strategies". -/
theorem claim_C5_counterexample :
    (PiiSimpleProcessor.interrupt ⟨true, false, .Running, [], none, 3, []⟩).opState =
      .Stopped ∧
    OpState.Stopped ≠ OpState.Interrupted ∧
    (PiiThreadedProcessor.interrupt ⟨.Stopped, [], 3, false, []⟩).opState = .Stopped := by
  decide

/-- C5 (amended): the threaded processor's `interrupt()` moves every
state except `Stopped` to `Interrupted` (a `Stopped` operation stays
`Stopped`) and always wakes the wait condition; the synchronous
processor's `interrupt()` disarms the processor and sets the state to
`Stopped`, never `Interrupted`. -/
theorem claim_C5 :
    (∀ s : TPState,
       (s.opState ≠ .Stopped →
         (PiiThreadedProcessor.interrupt s).opState = .Interrupted) ∧
       (s.opState = .Stopped → (PiiThreadedProcessor.interrupt s).opState = .Stopped) ∧
       (PiiThreadedProcessor.interrupt s).signalled = true) ∧
    (∀ s : SPState, (PiiSimpleProcessor.interrupt s).opState = .Stopped ∧
       (PiiSimpleProcessor.interrupt s).bReset = false) := by
  constructor
  · intro s
    refine ⟨?_, ?_, ?_⟩
    · intro h
      simp only [PiiThreadedProcessor.interrupt]
      rw [if_pos (by simp [h])]
    · intro h
      simp only [PiiThreadedProcessor.interrupt]
      rw [if_neg (by simp [h])]
      exact h
    · rfl
  · intro s
    exact ⟨rfl, rfl⟩

/-- C5 witness: the amended statement evaluated on a `Running` threaded
operation and a concrete synchronous state. -/
theorem claim_C5_witness :
    ((OpState.Running ≠ OpState.Stopped →
       (PiiThreadedProcessor.interrupt ⟨.Running, [], 3, false, []⟩).opState = .Interrupted) ∧
     (OpState.Running = OpState.Stopped →
       (PiiThreadedProcessor.interrupt ⟨.Running, [], 3, false, []⟩).opState = .Stopped) ∧
     (PiiThreadedProcessor.interrupt ⟨.Running, [], 3, false, []⟩).signalled = true) ∧
    ((PiiSimpleProcessor.interrupt ⟨true, true, .Paused, [], none, 3, []⟩).opState =
       .Stopped ∧
     (PiiSimpleProcessor.interrupt ⟨true, true, .Paused, [], none, 3, []⟩).bReset = false) :=
  ⟨claim_C5.1 ⟨.Running, [], 3, false, []⟩,
   claim_C5.2 ⟨true, true, .Paused, [], none, 3, []⟩⟩

/-- C6 counterexample: `stop()` and `pause()` of the synchronous
processor, on a `Running` operation with a connected input (non-null flow
controller), set the transitional states `Stopping` and `Pausing` —
refuting "no operation of the synchronous processor ever sets the
operation's state to Starting, Stopping, or Pausing". -/
theorem claim_C6_counterexample :
    (PiiSimpleProcessor.stop true ⟨true, false, .Running, [], none, 3, []⟩).opState =
      .Stopping ∧
    (PiiSimpleProcessor.pause true ⟨true, false, .Running, [], none, 3, []⟩).opState =
      .Pausing := by
  decide

/-- C6 (amended): the synchronous processor never enters `Starting`;
`start()`, `interrupt()`, `wait()` and `tryToReceive` only ever write the
stable states `Running`, `Paused`, `Stopped`; but `stop()`/`pause()` on a
`Running` operation with a connected input set `Stopping`/`Pausing`
respectively (without a flow controller they set the final stable state
directly, and on a non-`Running` operation they do nothing). -/
theorem claim_C6 :
    (∀ (hFC : Bool) (s : SPState),
       (PiiSimpleProcessor.start hFC s).opState = s.opState ∨
       (PiiSimpleProcessor.start hFC s).opState = .Running) ∧
    (∀ s : SPState, (PiiSimpleProcessor.interrupt s).opState = .Stopped) ∧
    (∀ (t : Nat) (s : SPState), (PiiSimpleProcessor.wait t s).2 = s) ∧
    (∀ (body : Nat → List Nat) (fuel : Nat) (c : SPCall) (s : SPState) (b : Bool)
       (s1 : SPState), simpleExec body fuel c s = some (b, s1) →
       s1.opState = s.opState ∨ s1.opState = .Running ∨ s1.opState = .Paused ∨
       s1.opState = .Stopped) ∧
    (∀ (s : SPState) (fs : OpState), s.opState ≠ .Running →
       PiiSimpleProcessor.stopTo true fs s = s) ∧
    (∀ s : SPState, s.opState = .Running →
       (PiiSimpleProcessor.stop true s).opState = .Stopping ∧
       (PiiSimpleProcessor.pause true s).opState = .Pausing) ∧
    (∀ (s : SPState) (fs : OpState),
       (PiiSimpleProcessor.stopTo false fs s).opState = s.opState ∨
       (PiiSimpleProcessor.stopTo false fs s).opState = fs) := by
  refine ⟨?_, ?_, ?_, ?_, ?_, ?_, ?_⟩
  · intro hFC s
    simp only [PiiSimpleProcessor.start]
    split
    · exact Or.inl rfl
    · split
      · split
        · exact Or.inl rfl
        · exact Or.inr rfl
      · exact Or.inr rfl
  · exact fun s => rfl
  · exact fun t s => rfl
  · intro body fuel c s b s1 h
    exact (simpleExec_inv body fuel c s b s1 h).2.2
  · intro s fs h
    simp only [PiiSimpleProcessor.stopTo]
    rw [if_neg (by simp [h])]
  · intro s h
    constructor
    · simp [PiiSimpleProcessor.stop, PiiSimpleProcessor.stopTo, h]
    · simp [PiiSimpleProcessor.pause, PiiSimpleProcessor.stopTo, h]
  · intro s fs
    simp only [PiiSimpleProcessor.stopTo]
    split
    · exact Or.inr rfl
    · exact Or.inl rfl

/-- C6 witness: the amended statement's conditional parts at concrete
states. -/
theorem claim_C6_witness :
    ((⟨true, false, .Paused, [], none, 3, []⟩ : SPState).opState ≠ .Running →
      PiiSimpleProcessor.stopTo true .Stopped ⟨true, false, .Paused, [], none, 3, []⟩ =
        ⟨true, false, .Paused, [], none, 3, []⟩) ∧
    ((⟨true, false, .Running, [], none, 3, []⟩ : SPState).opState = .Running →
      (PiiSimpleProcessor.stop true ⟨true, false, .Running, [], none, 3, []⟩).opState =
        .Stopping ∧
      (PiiSimpleProcessor.pause true ⟨true, false, .Running, [], none, 3, []⟩).opState =
        .Pausing) ∧
    (∃ Δ, (⟨true, false, .Running, [], none, 2,
        [.accepted 6 .Running, .flowQuery .ProcessableState, .procBegin 6, .procEnd 6,
         .flowQuery .IncompleteState]⟩ : SPState).opState =
          (⟨true, false, .Stopped, [], none, 2, Δ⟩ : SPState).opState ∨
      (⟨true, false, .Running, [], none, 2,
        [.accepted 6 .Running, .flowQuery .ProcessableState, .procBegin 6, .procEnd 6,
         .flowQuery .IncompleteState]⟩ : SPState).opState = .Running ∨
      (⟨true, false, .Running, [], none, 2,
        [.accepted 6 .Running, .flowQuery .ProcessableState, .procBegin 6, .procEnd 6,
         .flowQuery .IncompleteState]⟩ : SPState).opState = .Paused ∨
      (⟨true, false, .Running, [], none, 2,
        [.accepted 6 .Running, .flowQuery .ProcessableState, .procBegin 6, .procEnd 6,
         .flowQuery .IncompleteState]⟩ : SPState).opState = .Stopped) :=
  ⟨fun h => claim_C6.2.2.2.2.1 ⟨true, false, .Paused, [], none, 3, []⟩ .Stopped h,
   fun h => claim_C6.2.2.2.2.2.1 ⟨true, false, .Running, [], none, 3, []⟩ h,
   ⟨[], claim_C6.2.2.2.1 (fun _ => []) 10 (.recv 6)
      ⟨true, false, .Stopped, [], none, 2, []⟩ true
      ⟨true, false, .Running, [], none, 2,
        [.accepted 6 .Running, .flowQuery .ProcessableState, .procBegin 6, .procEnd 6,
         .flowQuery .IncompleteState]⟩ rfl⟩⟩

/-- C7 counterexample: interrupt a threaded operation blocked on its wait
condition with no pending input — the run loop exits without invoking
`process()`, but the final state after the thread terminates is
`Stopped`, committed by the `finished()`-signal handler `setStopped()`,
not `Interrupted`. -/
theorem claim_C7_counterexample :
    (PiiThreadedProcessor.runLoop 5
        (PiiThreadedProcessor.interrupt ⟨.Running, [], 3, false, []⟩)).map
      PiiThreadedProcessor.setStopped = some ⟨.Stopped, [], 3, true, []⟩ ∧
    OpState.Stopped ≠ OpState.Interrupted := by
  exact ⟨rfl, by decide⟩

/-- C7 (amended): interrupting a threaded operation blocked on its wait
condition with no pending input makes the run loop exit without invoking
`process()` (the trace is unchanged); the state is `Interrupted` when
`run()` returns, and the thread-termination handler (`setStopped`,
connected to `finished()`) then commits the final state `Stopped`. -/
theorem claim_C7 (s : TPState) (hR : s.opState = .Running) (_hq : s.queue = [])
    (fuel : Nat) :
    PiiThreadedProcessor.runLoop (fuel+1) (PiiThreadedProcessor.interrupt s) =
      some (PiiThreadedProcessor.interrupt s) ∧
    (PiiThreadedProcessor.interrupt s).trace = s.trace ∧
    (PiiThreadedProcessor.interrupt s).opState = .Interrupted ∧
    (PiiThreadedProcessor.setStopped (PiiThreadedProcessor.interrupt s)).opState =
      .Stopped := by
  have hI : (PiiThreadedProcessor.interrupt s).opState = .Interrupted := by
    simp only [PiiThreadedProcessor.interrupt]
    rw [if_pos (by simp [hR])]
  refine ⟨?_, ?_, hI, rfl⟩
  · simp only [PiiThreadedProcessor.runLoop]
    rw [if_pos (by simp [hI])]
  · simp only [PiiThreadedProcessor.interrupt]
    split <;> rfl

/-- C7 witness: the amended statement at a concrete blocked `Running`
operation. -/
theorem claim_C7_witness :
    PiiThreadedProcessor.runLoop 4
        (PiiThreadedProcessor.interrupt ⟨.Running, [], 3, false, []⟩) =
      some (PiiThreadedProcessor.interrupt ⟨.Running, [], 3, false, []⟩) ∧
    (PiiThreadedProcessor.interrupt ⟨.Running, [], 3, false, []⟩).trace = [] ∧
    (PiiThreadedProcessor.interrupt ⟨.Running, [], 3, false, []⟩).opState = .Interrupted ∧
    (PiiThreadedProcessor.setStopped
        (PiiThreadedProcessor.interrupt ⟨.Running, [], 3, false, []⟩)).opState = .Stopped :=
  claim_C7 ⟨.Running, [], 3, false, []⟩ rfl rfl 3

end Into
